import Mathlib

/-!
Shallow embedding of the image-to-statistics segmentation pipeline of
`semantic_image_segmentation` (src/app/services/segmentation_service.py and
src/app/config.py), together with proofs of the spec's claims about it.

Modelling conventions:

* numpy `uint8` channel values are `Nat` with an explicit `≤ 255` bound and
  the `astype(np.uint8)` cast is an explicit `% 256`;
* `float32` values are `ℚ` (the claims verified here depend only on exact
  ranges and orderings, never on rounding of binary floats);
* a `(H, W, 3)` array is `List (List (Nat × Nat × Nat))`, a `(H, W)` array is
  `List (List Nat)`, a `(H, W, C)` probability tensor is
  `List (List (List ℚ))`;
* library calls with no logic of their own in the repository are parameters:
  PIL decoding (`Image.open` + `convert("RGB")`) is a parameter
  `decode : List Nat → Except String RGBImage`, the model's `predict` is a
  parameter (the 1-element batch wrap/unwrap `x[None,...]` / `[0]` is
  elided), and `cv2.imencode(".png", ·)` is a parameter; `cv2.resize`'s
  interpolation kernel is abstracted to per-pixel source sampling — every
  claim proved about it (output shape, value range) is insensitive to the
  kernel, since any convex interpolation of `uint8` channels stays in
  `[0, 255]`;
* Python exceptions become `Except`: the single generic
  `Exception("Error preprocessing image: ...")` raised by
  `preprocess_image` and the numpy `IndexError` that `self.PALETTE[ids]`
  would raise are the two error constructors the service can actually
  produce.
-/

/-- Pixel of an 8-bit RGB image: channel values are `Nat`s bounded by 255. -/
abbrev Px : Type := Nat × Nat × Nat

/-- Decoded RGB image as a list of rows (numpy array of shape (H, W, 3)). -/
abbrev RGBImage : Type := List (List Px)

/-- Normalized pixel: three `float32` channels, modelled as rationals. -/
abbrev QPx : Type := ℚ × ℚ × ℚ

/-- Normalized tensor of shape (H, W, 3), values meant to lie in [0, 1]. -/
abbrev NormTensor : Type := List (List QPx)

/-- Probability tensor of shape (H, W, C): per pixel, a list of class scores. -/
abbrev ProbTensor : Type := List (List (List ℚ))

/-- Encoded byte buffer (each byte a `Nat`). -/
abbrev Bytes : Type := List Nat

namespace Settings

/-- Settings.N_CLASSES from src/app/config.py. -/
def N_CLASSES : Nat := 8

/-- Settings.IMG_SIZE = (256, 512) from src/app/config.py. -/
def IMG_SIZE : Nat × Nat := (256, 512)

/-- Settings.PALETTE from src/app/config.py: 8 RGB rows. -/
def PALETTE : List Px :=
  [(128, 64, 128),   -- road
   (220, 20, 60),    -- building
   (0, 0, 142),      -- car
   (70, 70, 70),     -- traffic sign
   (190, 153, 153),  -- person
   (107, 142, 35),   -- vegetation
   (70, 130, 180),   -- sky
   (0, 0, 0)]        -- background

/-- Settings.CLASS_NAMES from src/app/config.py. -/
def CLASS_NAMES : List String :=
  ["road", "building", "car", "traffic_sign", "person", "vegetation", "sky",
   "background"]

end Settings

/-- Errors the segmentation service can raise, from
src/app/services/segmentation_service.py: the generic wrapped exception of
`preprocess_image` and the numpy IndexError of the `PALETTE[ids]` lookup. -/
inductive Err : Type where
  | preprocessError (msg : String)
  | paletteIndexError (id : Nat)
  deriving DecidableEq, Repr

/-- Height of an image (number of rows). -/
def imgH (img : RGBImage) : Nat := img.length

/-- Width of an image: length of the first row (rows of a well-formed numpy
array all share it). -/
def imgW (img : RGBImage) : Nat := (img.headD []).length

/-- A decodable image, as PIL's `Image.open` + `convert("RGB")` delivers it:
positive dimensions, rectangular rows, every channel an 8-bit value. -/
def ValidRGB (img : RGBImage) : Prop :=
  0 < imgH img ∧ 0 < imgW img ∧
  (∀ row ∈ img, row.length = imgW img) ∧
  (∀ row ∈ img, ∀ p ∈ row, p.1 ≤ 255 ∧ p.2.1 ≤ 255 ∧ p.2.2 ≤ 255)

instance (img : RGBImage) : Decidable (ValidRGB img) := by
  unfold ValidRGB; infer_instance

/-- Model of `cv2.resize(img_array, (wt, ht))`: the output grid has exactly
`ht` rows of `wt` pixels, each sampled from the source grid (the
interpolation kernel is abstracted to nearest-pixel sampling; the verified
claims depend only on the output shape and on values staying in range). -/
def resizeTo (ht wt : Nat) (img : RGBImage) : RGBImage :=
  List.ofFn (fun y : Fin ht =>
    List.ofFn (fun x : Fin wt =>
      (img.getD (y.val * imgH img / ht) []).getD
        (x.val * imgW img / wt) (0, 0, 0)))

/-- Model of `img_resized.astype(np.float32) / 255.0`. -/
def normalizeImg (img : RGBImage) : NormTensor :=
  img.map (List.map (fun p : Px =>
    ((p.1 : ℚ) / 255, (p.2.1 : ℚ) / 255, (p.2.2 : ℚ) / 255)))

/-- SegmentationService.preprocess_image: decode the bytes (PIL open +
RGB conversion, a parameter), resize to `(IMG_SIZE[1], IMG_SIZE[0])` =
512×256, scale to `[0,1]`; any failure is wrapped in the generic
"Error preprocessing image: ..." exception. -/
def preprocess_image (decode : Bytes → Except String RGBImage)
    (image_bytes : Bytes) : Except Err NormTensor :=
  match decode image_bytes with
  | .error e => .error (.preprocessError ("Error preprocessing image: " ++ e))
  | .ok img =>
      .ok (normalizeImg (resizeTo Settings.IMG_SIZE.1 Settings.IMG_SIZE.2 img))

-- Basic facts about resize and normalize.

lemma length_resizeTo (ht wt : Nat) (img : RGBImage) :
    (resizeTo ht wt img).length = ht := by
  simp [resizeTo]

lemma mem_resizeTo_length {ht wt : Nat} {img : RGBImage} {row : List Px}
    (h : row ∈ resizeTo ht wt img) : row.length = wt := by
  simp only [resizeTo, List.mem_ofFn] at h
  obtain ⟨y, hy⟩ := h
  simp [← hy]

lemma getD_default_or_mem {α : Type} (l : List α) (i : Nat) (d : α) :
    l.getD i d = d ∨ l.getD i d ∈ l := by
  by_cases h : i < l.length
  · right
    rw [List.getD_eq_getElem l d h]
    exact List.getElem_mem h
  · left
    exact List.getD_eq_default l d (Nat.le_of_not_lt h)

/-- Every pixel of the resized image is a source pixel or the (in-range)
zero default. -/
lemma mem_resizeTo_bound {ht wt : Nat} {img : RGBImage}
    (hb : ∀ row ∈ img, ∀ p ∈ row, p.1 ≤ 255 ∧ p.2.1 ≤ 255 ∧ p.2.2 ≤ 255)
    {row : List Px} (hrow : row ∈ resizeTo ht wt img) {p : Px} (hp : p ∈ row) :
    p.1 ≤ 255 ∧ p.2.1 ≤ 255 ∧ p.2.2 ≤ 255 := by
  simp only [resizeTo, List.mem_ofFn] at hrow
  obtain ⟨y, hy⟩ := hrow
  rw [← hy] at hp
  simp only [List.mem_ofFn] at hp
  obtain ⟨x, hx⟩ := hp
  simp only at hx
  rcases getD_default_or_mem (img.getD (y.val * imgH img / ht) [])
      (x.val * imgW img / wt) (0, 0, 0) with hdef | hmem
  · rw [← hx, hdef]; exact ⟨by norm_num, by norm_num, by norm_num⟩
  · rcases getD_default_or_mem img (y.val * imgH img / ht) [] with hd2 | hm2
    · rw [hd2] at hmem; simp at hmem
    · exact hx ▸ hb _ hm2 _ hmem

-- `np.argmax(out, -1)`: index of the first occurrence of the maximum.

/-- Value at index `i` of a score list (indices used are always in range). -/
def nth (l : List ℚ) (i : Nat) : ℚ := l.getD i 0

/-- Scan of `np.argmax` over the tail: `k` is the index of the next element,
`bi`/`bv` the index and value of the best element so far; the best is
replaced only on a strictly greater value, so the first maximum wins. -/
def argmaxAux : Nat → Nat → ℚ → List ℚ → Nat
  | _, bi, _, [] => bi
  | k, bi, bv, v :: rest =>
      if bv < v then argmaxAux (k + 1) k v rest
      else argmaxAux (k + 1) bi bv rest

/-- Model of `np.argmax(scores)` for one pixel's class-score list
(numpy raises on an empty array; the service always passes the class axis,
never empty, and the total model returns 0 there). -/
def argmax : List ℚ → Nat
  | [] => 0
  | v :: rest => argmaxAux 1 0 v rest

/-- Index `m` is the first-occurring maximum of `l`: in range, its value
dominates all entries, and strictly dominates all earlier entries. -/
def IsFirstMax (l : List ℚ) (m : Nat) : Prop :=
  m < l.length ∧ (∀ j < l.length, nth l j ≤ nth l m) ∧
  ∀ j < m, nth l j < nth l m

lemma nth_cons_succ (v : ℚ) (rest : List ℚ) (j : Nat) :
    nth (v :: rest) (j + 1) = nth rest j := rfl

lemma nth_cons_zero (v : ℚ) (rest : List ℚ) : nth (v :: rest) 0 = v := rfl

/-- Invariant of the argmax scan: either no update ever fires (the result is
`bi` and the running best dominates the whole tail), or the result points at
the first maximum of the tail that strictly beats the running best. -/
lemma argmaxAux_spec (l : List ℚ) : ∀ (k bi : Nat) (bv : ℚ),
    (argmaxAux k bi bv l = bi ∧ ∀ j < l.length, nth l j ≤ bv) ∨
    (∃ m, m < l.length ∧ argmaxAux k bi bv l = k + m ∧ bv < nth l m ∧
      (∀ j < m, nth l j < nth l m) ∧
      (∀ j, m < j → j < l.length → nth l j ≤ nth l m)) := by
  induction l with
  | nil =>
      intro k bi bv
      left
      exact ⟨rfl, fun j hj => absurd hj (by simp)⟩
  | cons v rest ih =>
      intro k bi bv
      by_cases hlt : bv < v
      · rcases ih (k + 1) k v with ⟨hr, hall⟩ | ⟨m, hm, hr, hbv, hpre, hsuf⟩
        · right
          refine ⟨0, by simp, ?_, ?_, ?_, ?_⟩
          · simp [argmaxAux, hlt, hr]
          · simpa [nth_cons_zero] using hlt
          · intro j hj; omega
          · intro j hj hjl
            obtain ⟨j', rfl⟩ := Nat.exists_eq_add_of_lt hj
            simp only [List.length_cons] at hjl
            rw [Nat.zero_add, nth_cons_succ, nth_cons_zero]
            exact hall j' (by omega)
        · right
          refine ⟨m + 1, by simpa using hm, ?_, ?_, ?_, ?_⟩
          · simp only [argmaxAux, if_pos hlt, hr]; omega
          · rw [nth_cons_succ]; exact lt_trans hlt hbv
          · intro j hj
            match j with
            | 0 => rw [nth_cons_zero, nth_cons_succ]; exact hbv
            | j' + 1 =>
                rw [nth_cons_succ, nth_cons_succ]
                exact hpre j' (by omega)
          · intro j hj hjl
            match j with
            | j' + 1 =>
                rw [nth_cons_succ, nth_cons_succ]
                exact hsuf j' (by omega) (by simpa using hjl)
      · rcases ih (k + 1) bi bv with ⟨hr, hall⟩ | ⟨m, hm, hr, hbv, hpre, hsuf⟩
        · left
          refine ⟨by simp [argmaxAux, hlt, hr], ?_⟩
          intro j hj
          match j with
          | 0 => rw [nth_cons_zero]; exact le_of_not_lt hlt
          | j' + 1 => rw [nth_cons_succ]; exact hall j' (by simpa using hj)
        · right
          refine ⟨m + 1, by simpa using hm, ?_, ?_, ?_, ?_⟩
          · simp only [argmaxAux, if_neg hlt, hr]; omega
          · rw [nth_cons_succ]; exact hbv
          · intro j hj
            match j with
            | 0 =>
                rw [nth_cons_zero, nth_cons_succ]
                exact lt_of_le_of_lt (le_of_not_lt hlt) hbv
            | j' + 1 =>
                rw [nth_cons_succ, nth_cons_succ]
                exact hpre j' (by omega)
          · intro j hj hjl
            match j with
            | j' + 1 =>
                rw [nth_cons_succ, nth_cons_succ]
                exact hsuf j' (by omega) (by simpa using hjl)

/-- On a nonempty score list, `argmax` returns the first-occurring maximum. -/
lemma argmax_isFirstMax (l : List ℚ) (hl : l ≠ []) : IsFirstMax l (argmax l) := by
  match l with
  | v :: rest =>
      show IsFirstMax (v :: rest) (argmaxAux 1 0 v rest)
      rcases argmaxAux_spec rest 1 0 v with ⟨hr, hall⟩ | ⟨m, hm, hr, hbv, hpre, hsuf⟩
      · rw [hr]
        refine ⟨by simp, ?_, ?_⟩
        · intro j hj
          match j with
          | 0 => exact le_refl _
          | j' + 1 =>
              rw [nth_cons_succ, nth_cons_zero]
              exact hall j' (by simpa using hj)
        · intro j hj; omega
      · rw [hr]
        refine ⟨by simp only [List.length_cons]; omega, ?_, ?_⟩
        · intro j hj
          rw [Nat.add_comm 1 m, nth_cons_succ]
          match j with
          | 0 => rw [nth_cons_zero]; exact le_of_lt hbv
          | j' + 1 =>
              rw [nth_cons_succ]
              rcases lt_trichotomy j' m with h | h | h
              · exact le_of_lt (hpre j' h)
              · exact h ▸ le_refl _
              · exact hsuf j' h (by simpa using hj)
        · intro j hj
          rw [Nat.add_comm 1 m] at hj
          rw [Nat.add_comm 1 m, nth_cons_succ]
          match j with
          | 0 => rw [nth_cons_zero]; exact hbv
          | j' + 1 =>
              rw [nth_cons_succ]
              exact hpre j' (by omega)

/-- The argmax of a nonempty list indexes into it. -/
lemma argmax_lt_length (l : List ℚ) (hl : l ≠ []) : argmax l < l.length :=
  (argmax_isFirstMax l hl).1

-- Label mapping, palette lookup, PNG branch and statistics
-- (SegmentationService.segment_image / _get_segmentation_stats).

/-- Model of `ids = np.argmax(out, -1).astype(np.uint8)`: per-pixel argmax
over the class axis, then the uint8 cast as an explicit `% 256`. -/
def labelMap (out : ProbTensor) : List (List Nat) :=
  out.map (List.map (fun scores => argmax scores % 256))

/-- One element of the numpy fancy-indexing `self.PALETTE[ids]`: the palette
row at `id`, or the IndexError numpy raises when `id` is out of bounds. -/
def lookupPalette (id : Nat) : Except Err Px :=
  match Settings.PALETTE.get? id with
  | some c => .ok c
  | none => .error (.paletteIndexError id)

/-- Palette lookup over one row of the label grid. -/
def colorizeRow : List Nat → Except Err (List Px)
  | [] => .ok []
  | id :: rest =>
      match lookupPalette id with
      | .error e => .error e
      | .ok c =>
          match colorizeRow rest with
          | .error e => .error e
          | .ok cs => .ok (c :: cs)

/-- Model of `color = self.PALETTE[ids]`: per-pixel palette lookup, failing
exactly when some label is outside the palette. -/
def colorize : List (List Nat) → Except Err RGBImage
  | [] => .ok []
  | row :: rest =>
      match colorizeRow row with
      | .error e => .error e
      | .ok crow =>
          match colorize rest with
          | .error e => .error e
          | .ok crest => .ok (crow :: crest)

/-- Model of `cv2.cvtColor(color, cv2.COLOR_RGB2BGR)`: swap the channel
order of every pixel before PNG encoding. -/
def bgrOf (img : RGBImage) : RGBImage :=
  img.map (List.map (fun p : Px => (p.2.2, p.2.1, p.1)))

/-- One stats entry: class name, `pixel_count`, `percentage`. The percentage
is `none` exactly when numpy's division by a zero pixel total would produce
NaN (which Python's `round` passes through). -/
abbrev StatsEntry : Type := String × Nat × Option ℚ

/-- Round-half-to-even to the nearest integer, the rule of Python's
`round` (the repo's values are modelled as exact rationals). -/
def roundHalfEven (x : ℚ) : Int :=
  let f := ⌊x⌋
  let r := x - f
  if r < 1 / 2 then f
  else if 1 / 2 < r then f + 1
  else if f % 2 = 0 then f else f + 1

/-- Model of Python's `round(x, 2)`. -/
def round2 (x : ℚ) : ℚ := (roundHalfEven (x * 100) : ℚ) / 100

/-- Model of `np.sum(segmentation_ids == i)`: occurrences of class `i` in
the flattened label grid. -/
def countClass (i : Nat) (ids : List (List Nat)) : Nat := ids.join.count i

/-- SegmentationService._get_segmentation_stats: `total_pixels` is the array
size; for each `(i, class_name)` in `enumerate(self.CLASS_NAMES)` the entry
holds the pixel count and the rounded percentage
`(pixel_count / total_pixels) * 100`. When `total_pixels = 0` the numpy
division yields NaN (no exception), recorded here as `none`. -/
def get_segmentation_stats (segmentation_ids : List (List Nat)) :
    List StatsEntry :=
  let total_pixels := (segmentation_ids.map List.length).sum
  Settings.CLASS_NAMES.enum.map (fun e =>
    let pixel_count := countClass e.1 segmentation_ids
    (e.2, pixel_count,
      if total_pixels = 0 then none
      else some (round2 ((pixel_count : ℚ) / (total_pixels : ℚ) * 100))))

/-- SegmentationService.segment_image: preprocess, predict, argmax + uint8
cast, palette lookup, RGB→BGR swap + PNG encode (parameter), statistics.
Returns the PNG bytes and the stats, or the first error along the way. -/
def segment_image (decode : Bytes → Except String RGBImage)
    (predict : NormTensor → ProbTensor) (imencodePNG : RGBImage → Bytes)
    (image_bytes : Bytes) : Except Err (Bytes × List StatsEntry) :=
  match preprocess_image decode image_bytes with
  | .error e => .error e
  | .ok x =>
      let out := predict x
      let ids := labelMap out
      match colorize ids with
      | .error e => .error e
      | .ok color =>
          let buf := imencodePNG (bgrOf color)
          let stats := get_segmentation_stats ids
          .ok (buf, stats)

/-- Intermediate label grid of `segment_image` (the `ids` array), exposed
for the determinism claim. -/
def pipeline_labels (decode : Bytes → Except String RGBImage)
    (predict : NormTensor → ProbTensor) (image_bytes : Bytes) :
    Except Err (List (List Nat)) :=
  (preprocess_image decode image_bytes).map (fun x => labelMap (predict x))

-- Lazy model loading (SegmentationService.model property).

/-- The handle `self._model` can hold: the real loaded Keras model (opaque
handle) or the `Mock()` whose `predict` returns `np.random.rand(...)`. -/
inductive Model : Type where
  | real (handle : Nat)
  | mock
  deriving DecidableEq, Repr

deriving instance DecidableEq for Except

/-- Python truthiness of `os.getenv("AWS_LAMBDA_FUNCTION_NAME")`: truthy iff
set and nonempty. -/
def envTruthy : Option String → Bool
  | none => false
  | some s => s != ""

/-- Python's `str.lower()`, character by character. -/
def lowerStr (s : String) : String := ⟨s.data.map Char.toLower⟩

/-- One access to the `model` property. State `st` is `self._model`;
`load` is the outcome of `_download_model_from_s3` + `load_model`
(opaque handle on success); `testMode` is `os.getenv("TEST_MODE", "false")`
and `lambdaName` is `os.getenv("AWS_LAMBDA_FUNCTION_NAME")`. On a load
failure the mock is substituted when `TEST_MODE.lower() == "true"` or the
Lambda variable is truthy; otherwise the exception is re-raised. Returns
the model handed to the caller and the new state. -/
def modelAccess (st : Option Model) (load : Except String Nat)
    (testMode : String) (lambdaName : Option String) :
    Except String (Model × Option Model) :=
  match st with
  | some m => .ok (m, some m)
  | none =>
      match load with
      | .ok h => .ok (.real h, some (.real h))
      | .error e =>
          if lowerStr testMode == "true" || envTruthy lambdaName then
            .ok (.mock, some .mock)
          else
            .error e

/-- A sequence of `n` accesses to the `model` property in one process.
Returns the results handed to callers, the final state, and how many
accesses found `self._model is None` and therefore attempted a load. -/
def runAccesses (load : Except String Nat) (testMode : String)
    (lambdaName : Option String) :
    Nat → Option Model → List (Except String Model) × Option Model × Nat
  | 0, st => ([], st, 0)
  | n + 1, st =>
      let attempted : Nat := if st = none then 1 else 0
      match modelAccess st load testMode lambdaName with
      | .ok (m, st') =>
          let r := runAccesses load testMode lambdaName n st'
          (.ok m :: r.1, r.2.1, attempted + r.2.2)
      | .error e =>
          let r := runAccesses load testMode lambdaName n st
          (.error e :: r.1, r.2.1, attempted + r.2.2)

-- Helper lemmas shared by the claim theorems.

lemma chan_range {n : Nat} (h : n ≤ 255) :
    0 ≤ (n : ℚ) / 255 ∧ (n : ℚ) / 255 ≤ 1 := by
  constructor
  · positivity
  · rw [div_le_one (by norm_num)]
    exact_mod_cast h

lemma forall₂_map_self {α β : Type} (R : α → β → Prop) (f : α → β)
    (l : List α) (h : ∀ a ∈ l, R a (f a)) : List.Forall₂ R l (l.map f) := by
  induction l with
  | nil => simp
  | cons a rest ih =>
      simp only [List.map_cons]
      exact List.Forall₂.cons (h a (by simp))
        (ih (fun x hx => h x (by simp [hx])))

/-- C1: for every valid input image (any decodable byte sequence, any
dimensions, any color mode), `preprocess_image` returns an array of shape
exactly (256, 512, 3) with every element in [0.0, 1.0]. -/
theorem C1_preprocess_shape_and_range
    (decode : Bytes → Except String RGBImage) (image_bytes : Bytes)
    (img : RGBImage) (hdec : decode image_bytes = .ok img)
    (hvalid : ValidRGB img) :
    ∃ t : NormTensor, preprocess_image decode image_bytes = .ok t ∧
      t.length = 256 ∧ (∀ row ∈ t, row.length = 512) ∧
      ∀ row ∈ t, ∀ q ∈ row,
        (0 ≤ q.1 ∧ q.1 ≤ 1) ∧ (0 ≤ q.2.1 ∧ q.2.1 ≤ 1) ∧
        (0 ≤ q.2.2 ∧ q.2.2 ≤ 1) := by
  refine ⟨normalizeImg (resizeTo 256 512 img), ?_, ?_, ?_, ?_⟩
  · simp [preprocess_image, hdec, Settings.IMG_SIZE]
  · simp [normalizeImg, length_resizeTo]
  · intro row hrow
    simp only [normalizeImg, List.mem_map] at hrow
    obtain ⟨row', hrow', rfl⟩ := hrow
    simp [mem_resizeTo_length hrow']
  · intro row hrow q hq
    simp only [normalizeImg, List.mem_map] at hrow
    obtain ⟨row', hrow', rfl⟩ := hrow
    simp only [List.mem_map] at hq
    obtain ⟨p, hp, rfl⟩ := hq
    have hb := mem_resizeTo_bound hvalid.2.2.2 hrow' hp
    exact ⟨chan_range hb.1, chan_range hb.2.1, chan_range hb.2.2⟩

/-- Witness for C1 at a concrete 1×1 image and decoder. -/
theorem C1_preprocess_shape_and_range_witness :
    (fun _ : Bytes => (Except.ok [[((10 : Nat), (20 : Nat), (30 : Nat))]] :
        Except String RGBImage)) [0] = .ok [[(10, 20, 30)]] ∧
    ValidRGB [[(10, 20, 30)]] ∧
    ∃ t : NormTensor,
      preprocess_image (fun _ => .ok [[(10, 20, 30)]]) [0] = .ok t ∧
      t.length = 256 ∧ (∀ row ∈ t, row.length = 512) ∧
      ∀ row ∈ t, ∀ q ∈ row,
        (0 ≤ q.1 ∧ q.1 ≤ 1) ∧ (0 ≤ q.2.1 ∧ q.2.1 ≤ 1) ∧
        (0 ≤ q.2.2 ∧ q.2.2 ≤ 1) :=
  ⟨rfl, by decide,
    C1_preprocess_shape_and_range (fun _ => .ok [[(10, 20, 30)]]) [0]
      [[(10, 20, 30)]] rfl (by decide)⟩

lemma count_sum_eight (l : List Nat) (h : ∀ v ∈ l, v < 8) :
    l.count 0 + l.count 1 + l.count 2 + l.count 3 + l.count 4 + l.count 5 +
      l.count 6 + l.count 7 = l.length := by
  induction l with
  | nil => simp
  | cons v rest ih =>
      have hv : v < 8 := h v (List.mem_cons_self v rest)
      have hr := ih (fun x hx => h x (List.mem_cons_of_mem v hx))
      simp only [List.count_cons, List.length_cons]
      interval_cases v <;> simp_all <;> omega

lemma sum_map_length_const {W : Nat} (rows : List (List Nat))
    (h : ∀ r ∈ rows, r.length = W) :
    (rows.map List.length).sum = rows.length * W := by
  induction rows with
  | nil => simp
  | cons r rest ih =>
      simp only [List.map_cons, List.sum_cons, List.length_cons]
      rw [h r (by simp), ih (fun x hx => h x (by simp [hx]))]
      ring

/-- C2: for every nonempty label grid with values in [0, N_CLASSES-1], the
statistics hold exactly one entry per name of CLASS_NAMES (all 8 present
even at count zero) and the per-class pixel counts sum to H×W. -/
theorem C2_stats_complete_and_counts_sum (H W : Nat) (ids : List (List Nat))
    (hH : ids.length = H) (hW : ∀ row ∈ ids, row.length = W)
    (hpos : 0 < H * W)
    (hvals : ∀ row ∈ ids, ∀ v ∈ row, v < Settings.N_CLASSES) :
    (get_segmentation_stats ids).map Prod.fst = Settings.CLASS_NAMES ∧
    ((get_segmentation_stats ids).map (fun e => e.2.1)).sum = H * W := by
  have hcounts : (get_segmentation_stats ids).map (fun e => e.2.1) =
      [countClass 0 ids, countClass 1 ids, countClass 2 ids, countClass 3 ids,
       countClass 4 ids, countClass 5 ids, countClass 6 ids,
       countClass 7 ids] := rfl
  refine ⟨rfl, ?_⟩
  rw [hcounts]
  have hjv : ∀ v ∈ ids.join, v < 8 := by
    intro v hv
    obtain ⟨row, hrow, hvr⟩ := List.mem_join.mp hv
    exact hvals row hrow v hvr
  have hsum := count_sum_eight ids.join hjv
  have hlen : ids.join.length = H * W := by
    rw [List.length_join, sum_map_length_const ids hW, hH]
  simp only [countClass, List.sum_cons, List.sum_nil]
  omega

/-- Witness for C2 at a concrete 1×2 grid. -/
theorem C2_stats_complete_and_counts_sum_witness :
    ([[0, 7]] : List (List Nat)).length = 1 ∧
    (∀ row ∈ ([[0, 7]] : List (List Nat)), row.length = 2) ∧
    0 < 1 * 2 ∧
    (∀ row ∈ ([[0, 7]] : List (List Nat)), ∀ v ∈ row,
      v < Settings.N_CLASSES) ∧
    ((get_segmentation_stats [[0, 7]]).map Prod.fst = Settings.CLASS_NAMES ∧
     ((get_segmentation_stats [[0, 7]]).map (fun e => e.2.1)).sum = 1 * 2) :=
  ⟨rfl, by decide, by decide, by decide,
    C2_stats_complete_and_counts_sum 1 2 [[0, 7]] rfl (by decide) (by decide)
      (by decide)⟩

/-- C3: for every probability tensor of shape (H, W, N_CLASSES), the label
mapping assigns to each pixel the index of the first-occurring maximum of
its class scores (lowest index on ties), and every label lies in
[0, N_CLASSES-1]. -/
theorem C3_labelmap_first_max_in_range (out : ProbTensor)
    (hshape : ∀ row ∈ out, ∀ scores ∈ row,
      scores.length = Settings.N_CLASSES) :
    List.Forall₂ (List.Forall₂ (fun scores v =>
      v < Settings.N_CLASSES ∧ IsFirstMax scores v)) out (labelMap out) := by
  apply forall₂_map_self
  intro row hrow
  apply forall₂_map_self
  intro scores hscores
  have hlen : scores.length = 8 := hshape row hrow scores hscores
  have hne : scores ≠ [] := by
    intro h; rw [h] at hlen; simp at hlen
  have hlt : argmax scores < 8 := hlen ▸ argmax_lt_length scores hne
  have hmod : argmax scores % 256 = argmax scores :=
    Nat.mod_eq_of_lt (lt_trans hlt (by norm_num))
  rw [hmod]
  exact ⟨hlt, argmax_isFirstMax scores hne⟩

/-- Witness for C3 at a concrete 1×1×8 tensor with a tie between classes
1 and 4 (both score 3): the chosen label is 1, the lowest. -/
theorem C3_labelmap_first_max_in_range_witness :
    (∀ row ∈ ([[[1, 3, 2, 0, 3, 1, 0, 2]]] : ProbTensor), ∀ scores ∈ row,
      scores.length = Settings.N_CLASSES) ∧
    List.Forall₂ (List.Forall₂ (fun scores v =>
        v < Settings.N_CLASSES ∧ IsFirstMax scores v))
      [[[1, 3, 2, 0, 3, 1, 0, 2]]] (labelMap [[[1, 3, 2, 0, 3, 1, 0, 2]]]) :=
  ⟨by decide, C3_labelmap_first_max_in_range [[[1, 3, 2, 0, 3, 1, 0, 2]]]
    (by decide)⟩

/-- C4 counterexample: on the empty label grid the statistics calculator
does not fail at all — `_get_segmentation_stats` performs the
`pixel_count / total_pixels` division with `total_pixels = 0` (numpy
returns NaN with a warning, recorded as `none`) and returns a normal
mapping with every class at pixel_count 0. -/
theorem C4_counterexample_empty_grid_returns_normally :
    get_segmentation_stats [] =
      [("road", 0, none), ("building", 0, none), ("car", 0, none),
       ("traffic_sign", 0, none), ("person", 0, none), ("vegetation", 0, none),
       ("sky", 0, none), ("background", 0, none)] := rfl

/-- C4 amended: applied to an empty label grid (H×W = 0) the statistics
calculator raises no `EmptyImageError` (no such check or exception exists);
it divides each count by the zero total — NaN percentages under numpy,
modelled as `none` — and returns all CLASS_NAMES with pixel_count 0. -/
theorem C4_amended_empty_grid_divides_by_zero (ids : List (List Nat))
    (h : (ids.map List.length).sum = 0) :
    get_segmentation_stats ids =
      Settings.CLASS_NAMES.map (fun n => (n, 0, (none : Option ℚ))) := by
  have hjoin : ids.join = [] := by
    apply List.eq_nil_of_length_eq_zero
    rw [List.length_join, h]
  simp only [get_segmentation_stats, h, countClass, hjoin, if_pos rfl]
  rfl

/-- Witness for the amended C4 at the concrete empty grid. -/
theorem C4_amended_empty_grid_divides_by_zero_witness :
    (([] : List (List Nat)).map List.length).sum = 0 ∧
    get_segmentation_stats [] =
      Settings.CLASS_NAMES.map (fun n => (n, 0, (none : Option ℚ))) :=
  ⟨rfl, C4_amended_empty_grid_divides_by_zero [] rfl⟩

/-- C5 counterexample: with the load failing, `TEST_MODE` at its default
"false" (no explicit opt-in flag active) but a truthy
`AWS_LAMBDA_FUNCTION_NAME` — the situation of every production Lambda
deployment — the `model` property silently substitutes the synthetic mock
instead of propagating the load error. -/
theorem C5_counterexample_lambda_silent_mock :
    modelAccess none (.error "load failed") "false" (some "my-function") =
      .ok (Model.mock, some Model.mock) := by decide

/-- C5 amended: on a load failure the error propagates unless
`TEST_MODE.lower() == "true"` or the `AWS_LAMBDA_FUNCTION_NAME` environment
variable is truthy; the mock substitution is thus selected by runtime
environment sniffing (two conditions, one of them automatic in any Lambda
deployment), not by a single explicit opt-in configuration flag. -/
theorem C5_amended_fallback_by_env_sniffing (e testMode : String)
    (lambdaName : Option String) :
    modelAccess none (.error e) testMode lambdaName =
      (if lowerStr testMode == "true" || envTruthy lambdaName then
        .ok (Model.mock, some Model.mock)
      else .error e) := rfl

/-- C6: for every byte buffer the decoder rejects (malformed or empty), the
pipeline fails with the wrapped decode error before reaching the inference
stage — the result is independent of the inference and encoding functions —
and no partial output (no PNG bytes, no stats) is returned. -/
theorem C6_decode_failure_stops_pipeline
    (decode : Bytes → Except String RGBImage)
    (predict : NormTensor → ProbTensor) (imencodePNG : RGBImage → Bytes)
    (image_bytes : Bytes) (msg : String)
    (hdec : decode image_bytes = .error msg) :
    segment_image decode predict imencodePNG image_bytes =
      .error (.preprocessError ("Error preprocessing image: " ++ msg)) ∧
    ∀ (predict' : NormTensor → ProbTensor) (enc' : RGBImage → Bytes),
      segment_image decode predict' enc' image_bytes =
        segment_image decode predict imencodePNG image_bytes := by
  constructor
  · simp [segment_image, preprocess_image, hdec]
  · intro predict' enc'
    simp [segment_image, preprocess_image, hdec]

/-- Witness for C6 at the empty byte buffer and a decoder rejecting it. -/
theorem C6_decode_failure_stops_pipeline_witness :
    (fun b : Bytes => if b = [] then
        (Except.error "cannot identify image file" :
          Except String RGBImage)
      else .ok [[(0, 0, 0)]]) [] = .error "cannot identify image file" ∧
    (segment_image
        (fun b => if b = [] then .error "cannot identify image file"
          else .ok [[(0, 0, 0)]])
        (fun _ => []) (fun _ => []) [] =
      .error (.preprocessError
        ("Error preprocessing image: " ++ "cannot identify image file")) ∧
    ∀ (predict' : NormTensor → ProbTensor) (enc' : RGBImage → Bytes),
      segment_image
          (fun b => if b = [] then .error "cannot identify image file"
            else .ok [[(0, 0, 0)]]) predict' enc' [] =
        segment_image
          (fun b => if b = [] then .error "cannot identify image file"
            else .ok [[(0, 0, 0)]]) (fun _ => []) (fun _ => []) []) :=
  ⟨rfl, C6_decode_failure_stops_pipeline _ (fun _ => []) (fun _ => []) []
    "cannot identify image file" rfl⟩

lemma colorizeRow_ok (row : List Nat)
    (h : ∀ id ∈ row, id < Settings.PALETTE.length) :
    ∃ cs, colorizeRow row = .ok cs := by
  induction row with
  | nil => exact ⟨[], rfl⟩
  | cons id rest ih =>
      obtain ⟨c, hc⟩ : ∃ c, Settings.PALETTE[id]? = some c :=
        ⟨_, List.getElem?_eq_getElem (h id (by simp))⟩
      obtain ⟨cs, hcs⟩ := ih (fun x hx => h x (by simp [hx]))
      exact ⟨c :: cs, by simp [colorizeRow, lookupPalette, hc, hcs]⟩

lemma colorize_ok (g : List (List Nat))
    (h : ∀ row ∈ g, ∀ id ∈ row, id < Settings.PALETTE.length) :
    ∃ img, colorize g = .ok img := by
  induction g with
  | nil => exact ⟨[], rfl⟩
  | cons row rest ih =>
      obtain ⟨cs, hcs⟩ := colorizeRow_ok row (h row (by simp))
      obtain ⟨img, himg⟩ := ih (fun r hr => h r (by simp [hr]))
      exact ⟨cs :: img, by simp [colorize, hcs, himg]⟩

/-- C7 counterexample: a probability tensor whose last dimension is 2
(≠ N_CLASSES = 8) raises no `ShapeMismatchError` — no shape check exists:
the arg-max is taken anyway (label 0 here) and even the downstream palette
lookup succeeds. -/
theorem C7_counterexample_no_shape_error :
    labelMap [[[(3 : ℚ), 1]]] = [[0]] ∧
    colorize (labelMap [[[(3 : ℚ), 1]]]) = .ok [[(128, 64, 128)]] := by
  constructor <;> rfl

/-- C7 amended: the label-mapping step performs no shape check at all; for
any tensor whose pixels have any common positive last dimension `d ≤ 8` the
arg-max is computed and the whole label-to-color stage succeeds (an error —
numpy's palette IndexError, not a `ShapeMismatchError` — can arise only
later and only when `d > 8` puts some arg-max index beyond the palette). -/
theorem C7_amended_no_shape_check (out : ProbTensor) (d : Nat) (hd0 : 0 < d)
    (hd8 : d ≤ Settings.PALETTE.length)
    (hshape : ∀ row ∈ out, ∀ scores ∈ row, scores.length = d) :
    ∃ img, colorize (labelMap out) = .ok img := by
  apply colorize_ok
  intro row hrow id hid
  simp only [labelMap, List.mem_map] at hrow
  obtain ⟨row', hrow', rfl⟩ := hrow
  simp only [List.mem_map] at hid
  obtain ⟨scores, hscores, rfl⟩ := hid
  have hlen : scores.length = d := hshape row' hrow' scores hscores
  have hne : scores ≠ [] := by
    intro h; rw [h] at hlen; simp at hlen; omega
  have hlt : argmax scores < d := hlen ▸ argmax_lt_length scores hne
  calc argmax scores % 256 ≤ argmax scores := Nat.mod_le _ _
    _ < d := hlt
    _ ≤ Settings.PALETTE.length := hd8

/-- Witness for the amended C7 at a concrete 1×1×2 tensor. -/
theorem C7_amended_no_shape_check_witness :
    0 < 2 ∧ 2 ≤ Settings.PALETTE.length ∧
    (∀ row ∈ ([[[(3 : ℚ), 1]]] : ProbTensor), ∀ scores ∈ row,
      scores.length = 2) ∧
    ∃ img, colorize (labelMap [[[(3 : ℚ), 1]]]) = .ok img :=
  ⟨by decide, by decide, by decide,
    C7_amended_no_shape_check [[[(3 : ℚ), 1]]] 2 (by decide) (by decide)
      (by decide)⟩

lemma runAccesses_from_some (load : Except String Nat) (testMode : String)
    (lambdaName : Option String) (m : Model) :
    ∀ n, runAccesses load testMode lambdaName n (some m) =
      (List.replicate n (.ok m), some m, 0) := by
  intro n
  induction n with
  | zero => rfl
  | succ k ih => simp [runAccesses, modelAccess, ih, List.replicate_succ]

/-- C8: when loading succeeds, the model artifact is loaded at most once
per process: starting unset, a sequence of `n` accesses returns the loaded
handle every time, leaves the state loaded, and only the first access (if
any) finds the handle unset and performs a load — `min 1 n` loads total. -/
theorem C8_model_loaded_at_most_once (h : Nat) (testMode : String)
    (lambdaName : Option String) (n : Nat) :
    runAccesses (.ok h) testMode lambdaName n none =
      (List.replicate n (.ok (Model.real h)),
       if n = 0 then none else some (Model.real h), min 1 n) := by
  cases n with
  | zero => rfl
  | succ k =>
      simp [runAccesses, modelAccess,
        runAccesses_from_some (Except.ok h) testMode lambdaName
          (Model.real h) k, List.replicate_succ, Nat.min_def]

/-- C9: the full pipeline is a deterministic function of the input bytes
and the (deterministic) decode/inference/encode functions: identical bytes
yield identical label grids and identical (PNG bytes, statistics) results. -/
theorem C9_pipeline_deterministic (decode : Bytes → Except String RGBImage)
    (predict : NormTensor → ProbTensor) (imencodePNG : RGBImage → Bytes)
    (b₁ b₂ : Bytes) (hb : b₁ = b₂) :
    pipeline_labels decode predict b₁ = pipeline_labels decode predict b₂ ∧
    segment_image decode predict imencodePNG b₁ =
      segment_image decode predict imencodePNG b₂ := by
  subst hb
  exact ⟨rfl, rfl⟩

/-- Witness for C9 at a concrete decoder, inference function and input. -/
theorem C9_pipeline_deterministic_witness :
    ([5, 6] : Bytes) = [5, 6] ∧
    (pipeline_labels (fun _ => .ok [[(1, 2, 3)]])
        (fun _ => [[[(1 : ℚ), 0, 0, 0, 0, 0, 0, 0]]]) [5, 6] =
      pipeline_labels (fun _ => .ok [[(1, 2, 3)]])
        (fun _ => [[[(1 : ℚ), 0, 0, 0, 0, 0, 0, 0]]]) [5, 6] ∧
    segment_image (fun _ => .ok [[(1, 2, 3)]])
        (fun _ => [[[(1 : ℚ), 0, 0, 0, 0, 0, 0, 0]]]) (fun _ => [9]) [5, 6] =
      segment_image (fun _ => .ok [[(1, 2, 3)]])
        (fun _ => [[[(1 : ℚ), 0, 0, 0, 0, 0, 0, 0]]]) (fun _ => [9]) [5, 6]) :=
  ⟨rfl, C9_pipeline_deterministic (fun _ => .ok [[(1, 2, 3)]])
    (fun _ => [[[(1 : ℚ), 0, 0, 0, 0, 0, 0, 0]]]) (fun _ => [9]) [5, 6] [5, 6]
    rfl⟩

/-- C10 (implicit): when each pixel's score list has length N_CLASSES = 8,
the uint8 cast of the arg-max never changes the value (arg-max < 8 < 256)
and the palette lookup is always in bounds, so the numpy IndexError branch
of the palette indexing is unreachable. -/
theorem C10_uint8_cast_and_palette_in_bounds (scores : List ℚ)
    (hlen : scores.length = Settings.N_CLASSES) :
    argmax scores % 256 = argmax scores ∧
    argmax scores < Settings.PALETTE.length ∧
    ∃ c, lookupPalette (argmax scores % 256) = .ok c := by
  have hlen8 : scores.length = 8 := hlen
  have hne : scores ≠ [] := by
    intro h; rw [h] at hlen8; simp at hlen8
  have hlt : argmax scores < 8 := hlen8 ▸ argmax_lt_length scores hne
  have hmod : argmax scores % 256 = argmax scores :=
    Nat.mod_eq_of_lt (lt_trans hlt (by norm_num))
  refine ⟨hmod, hlt, ?_⟩
  rw [hmod]
  have hlt8 : argmax scores < Settings.PALETTE.length := hlt
  obtain ⟨c, hc⟩ : ∃ c, Settings.PALETTE[argmax scores]? = some c :=
    ⟨_, List.getElem?_eq_getElem hlt8⟩
  exact ⟨c, by simp [lookupPalette, hc]⟩

/-- Witness for C10 at a concrete 8-score pixel. -/
theorem C10_uint8_cast_and_palette_in_bounds_witness :
    ([(0 : ℚ), 1, 2, 9, 4, 5, 6, 7] : List ℚ).length = Settings.N_CLASSES ∧
    (argmax [(0 : ℚ), 1, 2, 9, 4, 5, 6, 7] % 256 =
        argmax [(0 : ℚ), 1, 2, 9, 4, 5, 6, 7] ∧
     argmax [(0 : ℚ), 1, 2, 9, 4, 5, 6, 7] < Settings.PALETTE.length ∧
     ∃ c, lookupPalette (argmax [(0 : ℚ), 1, 2, 9, 4, 5, 6, 7] % 256) =
        .ok c) :=
  ⟨by decide, C10_uint8_cast_and_palette_in_bounds
    [(0 : ℚ), 1, 2, 9, 4, 5, 6, 7] (by decide)⟩
